import Mathlib

/-!
Shallow embedding of the analytics engine in
`src/functions/migrate_workout_logs.py` (function `process_workouts` and its
nested helpers).  Python numbers are modelled as rationals (`ℚ`), Firestore
timestamps as whole-day integers (`ℤ`, so that Python's
`(a - b).days` is exact subtraction), and Python dicts as insertion-ordered
association lists.  Every definition is translated from the source; the only
spec-side definitions are clearly marked as such.
-/

namespace Migrate

/-- Python's builtin `round` on a rational: round half to even (banker's
rounding), as Python does for `round(x)` with no digits argument. -/
def pyRound (q : ℚ) : ℤ :=
  if q - ⌊q⌋ < 1/2 then ⌊q⌋
  else if 1/2 < q - ⌊q⌋ then ⌊q⌋ + 1
  else if ⌊q⌋ % 2 = 0 then ⌊q⌋ else ⌊q⌋ + 1

/-- Python's builtin `int` on a rational: truncation toward zero. -/
def pyTrunc (q : ℚ) : ℤ :=
  if 0 ≤ q then ⌊q⌋ else ⌈q⌉

/-- RPE to percentage of 1RM mapping, in the source's dict insertion order
(`RPE_TO_PERCENTAGE` in `process_workouts`). -/
def RPE_TO_PERCENTAGE : List (ℚ × ℚ) :=
  [(10, 1), (19/2, 98/100), (9, 96/100), (17/2, 94/100), (8, 92/100),
   (15/2, 90/100), (7, 88/100), (13/2, 86/100), (6, 84/100), (5, 82/100)]

/-- Rep-range table `REP_RANGES`, in source insertion order; each label with
its inclusive `min` and `max` bounds. -/
def REP_RANGES : List (String × ℚ × ℚ) :=
  [("1RM", 1, 1), ("3RM", 2, 3), ("5RM", 4, 5),
   ("8RM", 6, 8), ("12RM", 9, 12), ("15RM", 13, 20)]

/-- Python's builtin `abs` on a rational. -/
def absQ (q : ℚ) : ℚ := if q < 0 then -q else q

/-- One iteration of the closest-RPE search loop in `calculate_effective_rpe`:
the accumulator is `(closest_rpe, min_diff)` with `none` standing for the
initial `float('inf')`. -/
def rpeStep (adjusted : ℚ) (acc : ℚ × Option ℚ) (entry : ℚ × ℚ) : ℚ × Option ℚ :=
  let diff := absQ (adjusted - entry.2)
  match acc.2 with
  | none => (entry.1, some diff)
  | some m => if diff < m then (entry.1, some diff) else acc

/-- `calculate_effective_rpe(weight, reps, e1rm)` from the source. -/
def calculate_effective_rpe (weight reps e1rm : ℚ) : ℚ :=
  if e1rm = 0 then 5
  else
    let percentage := weight / e1rm
    let rep_adjustment := max 0 ((reps - 5) * (2/100))
    let adjusted_percentage := percentage + rep_adjustment
    (RPE_TO_PERCENTAGE.foldl (rpeStep adjusted_percentage) (5, none)).1

/-- Contribution of one set to `effective_reps` inside
`calculate_effective_reps`: zero unless `reps > 0 and weight > 0` and the
estimated RPE is at least 7. -/
def effectiveRepsContribution (weight reps e1rm : ℚ) : ℚ :=
  if reps > 0 ∧ weight > 0 then
    let rpe := calculate_effective_rpe weight reps e1rm
    if rpe ≥ 7 then reps * min 2 ((rpe - 6) / 4) else 0
  else 0

/-- Sum accumulated by the loop of `calculate_effective_reps`, before the
final `round`.  Sets are `(weight, reps)` pairs. -/
def rawEffectiveReps (sets : List (ℚ × ℚ)) (e1rm : ℚ) : ℚ :=
  sets.foldl (fun acc s => acc + effectiveRepsContribution s.1 s.2 e1rm) 0

/-- `calculate_effective_reps(sets, e1rm)` from the source: the summed
contributions, rounded with Python `round`. -/
def calculate_effective_reps (sets : List (ℚ × ℚ)) (e1rm : ℚ) : ℤ :=
  pyRound (rawEffectiveReps sets e1rm)

/-- `get_rep_range_category(reps)` from the source: the first matching rep
range, defaulting to `"15RM"` for high-rep work. -/
def get_rep_range_category (reps : ℚ) : String :=
  match REP_RANGES.find? (fun r => decide (r.2.1 ≤ reps ∧ reps ≤ r.2.2)) with
  | some r => r.1
  | none => "15RM"

/-- Effective weight of a set (the bodyweight adjustment repeated at every
set site in the source): `weight` unless the exercise type is `Bodyweight`
or `Bodyweight Loadable`. -/
def effectiveWeight (exerciseType : String) (bodyweight weight : ℚ) : ℚ :=
  if exerciseType = "Bodyweight" then bodyweight
  else if exerciseType = "Bodyweight Loadable" then bodyweight + weight
  else weight

/-- Epley-style estimated one-rep max of a single set:
`effective_weight * (1 + (reps / 30))`. -/
def setE1RM (exerciseType : String) (bodyweight weight reps : ℚ) : ℚ :=
  effectiveWeight exerciseType bodyweight weight * (1 + reps / 30)

/-- Python dict lookup (`d.get(k)` / `d[k]`) on an insertion-ordered
association list. -/
def dictGet {κ α : Type} [DecidableEq κ] : List (κ × α) → κ → Option α
  | [], _ => none
  | p :: t, k => if p.1 = k then some p.2 else dictGet t k

/-- Python dict assignment `d[k] = v`: replaces the value in place if the key
is present (keys of a dict are unique, so replacing the first occurrence
suffices), appends at the end otherwise. -/
def dictSet {κ α : Type} [DecidableEq κ] : List (κ × α) → κ → α → List (κ × α)
  | [], k, v => [(k, v)]
  | p :: t, k, v => if p.1 = k then (k, v) :: t else p :: dictSet t k v

/-- Python `d[k] = d.get(k, 0) + n`. -/
def dictAdd {κ : Type} [DecidableEq κ] (d : List (κ × ℕ)) (k : κ) (n : ℕ) : List (κ × ℕ) :=
  dictSet d k (((dictGet d k).getD 0) + n)

/-- One personal-record entry of `prs_by_rep_range`: note the source stores
`round(set_e1rm)` (an integer) in the `e1RM` field. -/
structure PRRecord where
  e1RM : ℤ
  weight : ℚ
  reps : ℚ
  date : ℤ
deriving DecidableEq

/-- Per-exercise per-workout loop state shared by the two data-shape branches
of `process_workouts` (the source duplicates the loop body verbatim between
the `sets` branch and the legacy-arrays branch).  The intensity distribution
is keyed by the bucket integer; Python keys the dict by `str(bucket)`, an
injective renaming. -/
structure SetState where
  e1RM : ℚ
  volume : ℚ
  totalReps : ℚ
  intensitySum : ℤ
  intensityCount : ℕ
  intensityDist : List (ℤ × ℕ)
  prs : List (String × PRRecord)
deriving DecidableEq

def initSetState : SetState :=
  { e1RM := 0, volume := 0, totalReps := 0, intensitySum := 0,
    intensityCount := 0, intensityDist := [], prs := [] }

/-- Body of the per-set loop of `process_workouts`, executed for a set with
`reps > 0` (lines 496-531 of the source, repeated verbatim at lines 559-595):
updates the running workout e1RM, volume, rep total, intensity statistics and
the PR-by-rep-range table. -/
def applySet (exerciseType : String) (bodyweight current_e1rm : ℚ) (workout_date : ℤ)
    (st : SetState) (weight reps : ℚ) : SetState :=
  let ew := effectiveWeight exerciseType bodyweight weight
  let set_e1rm := ew * (1 + reps / 30)
  let intensity_percent := pyRound (ew / current_e1rm * 100)
  let intensity_bucket := (Int.fdiv intensity_percent 10) * 10
  let rep_range := get_rep_range_category reps
  { e1RM := if set_e1rm > st.e1RM then set_e1rm else st.e1RM,
    volume := st.volume + ew * reps,
    totalReps := st.totalReps + reps,
    intensitySum := if current_e1rm > 0 then st.intensitySum + intensity_percent
      else st.intensitySum,
    intensityCount := if current_e1rm > 0 then st.intensityCount + 1 else st.intensityCount,
    intensityDist := if current_e1rm > 0 then dictAdd st.intensityDist intensity_bucket 1
      else st.intensityDist,
    prs :=
      match dictGet st.prs rep_range with
      | none => dictSet st.prs rep_range ⟨pyRound set_e1rm, ew, reps, workout_date⟩
      | some pr =>
          if set_e1rm > (pr.e1RM : ℚ) then
            dictSet st.prs rep_range ⟨pyRound set_e1rm, ew, reps, workout_date⟩
          else st.prs }

/-- The PR record the loop body stores for a set. -/
def newPR (exerciseType : String) (bodyweight weight reps : ℚ) (workout_date : ℤ) : PRRecord :=
  ⟨pyRound (setE1RM exerciseType bodyweight weight reps),
   effectiveWeight exerciseType bodyweight weight, reps, workout_date⟩

/-- One entry of a current-shape `sets` list: a `{weight, reps}` pair. -/
structure SetEntry where
  weight : ℚ
  reps : ℚ
deriving DecidableEq

/-- Per-workout per-exercise result computed by one iteration of the exercise
loop of `process_workouts`, before it is merged into the accumulator. -/
structure ExResult where
  e1RM : ℚ
  volume : ℚ
  totalReps : ℚ
  totalSets : ℕ
  effectiveReps : ℤ
  intensitySum : ℤ
  intensityCount : ℕ
  averageIntensityPercent : ℤ
  intensityDist : List (ℤ × ℕ)
  prs : List (String × PRRecord)
deriving DecidableEq

/-- Tuple of every `ExResult` field except the set count, used to state that
two processing runs agree everywhere but on `totalSets`. -/
def exceptSets (r : ExResult) :
    ℚ × ℚ × ℚ × ℤ × ℤ × ℕ × ℤ × List (ℤ × ℕ) × List (String × PRRecord) :=
  (r.e1RM, r.volume, r.totalReps, r.effectiveReps, r.intensitySum, r.intensityCount,
   r.averageIntensityPercent, r.intensityDist, r.prs)

/-- Step of the current-shape set loop: sets with `reps <= 0` are skipped. -/
def currentStep (exerciseType : String) (bodyweight current_e1rm : ℚ) (workout_date : ℤ)
    (st : SetState) (s : SetEntry) : SetState :=
  if s.reps > 0 then applySet exerciseType bodyweight current_e1rm workout_date st s.weight s.reps
  else st

/-- Average intensity percent: `round(total_intensity_sum /
valid_sets_for_intensity)` when any set counted, else the initial 0. -/
def averageIntensityPercentOf (st : SetState) : ℤ :=
  if st.intensityCount > 0 then pyRound ((st.intensitySum : ℚ) / (st.intensityCount : ℚ)) else 0

/-- Current-data-structure branch of the exercise loop (source lines 488-539):
`workout_total_sets` is the full length of the `sets` list, and effective reps
are computed from the raw `{weight, reps}` pairs of every set. -/
def processCurrent (exerciseType : String) (bodyweight current_e1rm : ℚ) (workout_date : ℤ)
    (sets : List SetEntry) : ExResult :=
  let st := sets.foldl (currentStep exerciseType bodyweight current_e1rm workout_date) initSetState
  { e1RM := st.e1RM, volume := st.volume, totalReps := st.totalReps,
    totalSets := sets.length,
    effectiveReps := calculate_effective_reps (sets.map (fun s => (s.weight, s.reps))) current_e1rm,
    intensitySum := st.intensitySum, intensityCount := st.intensityCount,
    averageIntensityPercent := averageIntensityPercentOf st,
    intensityDist := st.intensityDist, prs := st.prs }

/-- Legacy (historical) exercise shape: parallel `reps`, `weights` and
`completed` arrays. -/
structure LegacyEx where
  reps : List ℚ
  weights : List ℚ
  completed : List Bool
deriving DecidableEq

/-- Python truthiness cast `int(x) if x else 0` applied to array elements in
the legacy branch. -/
def legacyNum (q : ℚ) : ℚ :=
  if q = 0 then 0 else (pyTrunc q : ℚ)

/-- Step of the legacy-arrays set loop (source lines 553-598): only completed
sets with `reps > 0` are processed; the accumulator also carries
`workout_total_sets` and the `completed_sets` list later fed to
`calculate_effective_reps` (with the bodyweight-adjusted weight). -/
def legacyStep (exerciseType : String) (bodyweight current_e1rm : ℚ) (workout_date : ℤ)
    (acc : SetState × ℕ × List (ℚ × ℚ)) (entry : ℚ × ℚ × Bool) : SetState × ℕ × List (ℚ × ℚ) :=
  if entry.2.2 then
    let reps := legacyNum entry.1
    let weight := legacyNum entry.2.1
    if reps > 0 then
      let ew := effectiveWeight exerciseType bodyweight weight
      (applySet exerciseType bodyweight current_e1rm workout_date acc.1 weight reps,
       acc.2.1 + 1, acc.2.2 ++ [(ew, reps)])
    else acc
  else acc

/-- Legacy-data-structure branch of the exercise loop (source lines 541-601):
`num_sets` is the minimum of the three array lengths (modelled by the nested
`zip`, which truncates to the minimum); when it is zero the whole exercise
entry is skipped (`continue`), yielding `none`. -/
def processLegacy (exerciseType : String) (bodyweight current_e1rm : ℚ) (workout_date : ℤ)
    (ex : LegacyEx) : Option ExResult :=
  let entries := ex.reps.zip (ex.weights.zip ex.completed)
  if entries.length = 0 then none
  else
    let acc := entries.foldl (legacyStep exerciseType bodyweight current_e1rm workout_date)
      (initSetState, 0, [])
    let r : ExResult :=
      { e1RM := acc.1.e1RM, volume := acc.1.volume, totalReps := acc.1.totalReps,
        totalSets := acc.2.1,
        effectiveReps := calculate_effective_reps acc.2.2 current_e1rm,
        intensitySum := acc.1.intensitySum, intensityCount := acc.1.intensityCount,
        averageIntensityPercent := averageIntensityPercentOf acc.1,
        intensityDist := acc.1.intensityDist, prs := acc.1.prs }
    some r

/-- Exercise metadata resolved by `get_exercise_metadata`. -/
structure Metadata where
  name : String
  muscleGroup : String
  exerciseType : String
  isCompoundLift : Bool
  movementPattern : String
  equipment : String
deriving DecidableEq

/-- Tagged form of the two exercise-entry shapes the engine supports (the
source probes `'sets' in exercise and isinstance(exercise['sets'], list)`). -/
inductive ExShape where
  | current (sets : List SetEntry)
  | legacy (arrays : LegacyEx)
deriving DecidableEq

/-- One exercise entry of a workout document, as read by the detectors. -/
structure WorkoutEx where
  exerciseId : String
  shape : ExShape
deriving DecidableEq

/-- Workout document as seen by the windowed detectors: `date` is the
effective date `completedDate or date` (absent when both are missing), in
whole days. -/
structure WorkoutDoc where
  date : Option ℤ
  exercises : List WorkoutEx
deriving DecidableEq

/-- Scanning loop of `calculate_staleness_score`: walks the recent-workout
window carrying `days_since_variation`, stopping (`break`) when a different
exercise with the same movement pattern is found.  Python's
`(a - b).days` on whole-day timestamps is exact integer subtraction. -/
def stalenessLoop (meta : String → Metadata) (exercise_id : String) (current_date : ℤ) :
    List WorkoutDoc → ℤ → ℤ × Bool
  | [], d => (d, false)
  | w :: rest, d =>
    match w.date with
    | none => stalenessLoop meta exercise_id current_date rest d
    | some wd =>
      let days_diff := current_date - wd
      if w.exercises.any (fun ex => ex.exerciseId == exercise_id) then
        stalenessLoop meta exercise_id current_date rest days_diff
      else if w.exercises.any
          (fun ex => (meta ex.exerciseId).movementPattern == (meta exercise_id).movementPattern) then
        (d, true)
      else
        stalenessLoop meta exercise_id current_date rest d

/-- `calculate_staleness_score` from the source: `min(100, d*2)` when a
variation was found, else `min(100, d*3)`. -/
def calculate_staleness_score (meta : String → Metadata) (exercise_id : String)
    (current_date : ℤ) (recent : List WorkoutDoc) : ℤ :=
  let r := stalenessLoop meta exercise_id current_date recent 0
  if r.2 then min 100 (r.1 * 2) else min 100 (r.1 * 3)

/-- Best (maximum) set e1RM of a current-shape entry, as computed inside
`detect_plateau` (`max_e1rm` starts at 0; sets with `reps <= 0` are
skipped). -/
def bestE1RMCurrent (exerciseType : String) (bodyweight : ℚ) (sets : List SetEntry) : ℚ :=
  sets.foldl
    (fun m s => if s.reps > 0 then max m (setE1RM exerciseType bodyweight s.weight s.reps) else m) 0

/-- Best (maximum) set e1RM of a legacy-shape entry inside `detect_plateau`:
only completed sets count and array elements go through `int(x) if x else 0`. -/
def bestE1RMLegacy (exerciseType : String) (bodyweight : ℚ) (a : LegacyEx) : ℚ :=
  (a.reps.zip (a.weights.zip a.completed)).foldl
    (fun m e =>
      if e.2.2 then
        let reps := legacyNum e.1
        let weight := legacyNum e.2.1
        if reps > 0 then max m (setE1RM exerciseType bodyweight weight reps) else m
      else m) 0

/-- Result dict of `detect_plateau`; `trendPercent` is present only on the
successful path. -/
structure PlateauData where
  isPlateaued : Bool
  plateauDays : ℤ
  trend : String
  trendPercent : Option ℚ
deriving DecidableEq

/-- History built by `detect_plateau`: for each window workout containing the
target exercise, the workout date together with the best set e1RM, kept only
when that best e1RM is positive. -/
def plateauPoints (meta : String → Metadata) (bodyweight : ℚ) (exercise_id : String)
    (recent : List WorkoutDoc) : List (Option ℤ × ℚ) :=
  recent.filterMap (fun w =>
    match w.exercises.find? (fun ex => ex.exerciseId == exercise_id) with
    | none => none
    | some ex =>
      let m := match ex.shape with
        | ExShape.current sets => bestE1RMCurrent (meta exercise_id).exerciseType bodyweight sets
        | ExShape.legacy a => bestE1RMLegacy (meta exercise_id).exerciseType bodyweight a
      if m > 0 then some (w.date, m) else none)

/-- Examination of the chronologically last 4 history points (source lines
313-343): the plateau flag `e1RM <= max_recent * 1.02` for each point, the
trend of the 2-point averages, and the plateau duration in days. -/
def plateauOf4 (p0 p1 p2 p3 : ℤ × ℚ) : PlateauData :=
  let max_recent := max (max (max p0.2 p1.2) p2.2) p3.2
  let is_plateaued :=
    decide (p0.2 ≤ max_recent * (102/100)) && decide (p1.2 ≤ max_recent * (102/100)) &&
    decide (p2.2 ≤ max_recent * (102/100)) && decide (p3.2 ≤ max_recent * (102/100))
  let first_2_avg := (p0.2 + p1.2) / 2
  let last_2_avg := (p2.2 + p3.2) / 2
  let trend_percent := ((last_2_avg - first_2_avg) / first_2_avg) * 100
  let trend :=
    if trend_percent > 2 then "improving"
    else if trend_percent < -2 then "declining"
    else "stable"
  { isPlateaued := is_plateaued,
    plateauDays := if is_plateaued then p3.1 - p0.1 else 0,
    trend := trend, trendPercent := some trend_percent }

/-- Dispatch on the last-4 slice `e1rm_history[-4:]` (it always has exactly 4
elements on the successful path; the fallback is unreachable). -/
def plateauFromPoints (recent_4 : List (ℤ × ℚ)) : PlateauData :=
  match recent_4 with
  | p0 :: p1 :: p2 :: p3 :: _ => plateauOf4 p0 p1 p2 p3
  | _ => { isPlateaued := false, plateauDays := 0, trend := "error", trendPercent := none }

/-- History points paired with their (present) dates. -/
def datedPoints (meta : String → Metadata) (bodyweight : ℚ) (exercise_id : String)
    (recent : List WorkoutDoc) : List (ℤ × ℚ) :=
  (plateauPoints meta bodyweight exercise_id recent).filterMap
    (fun h => h.1.map (fun d => (d, h.2)))

/-- History sorted by date, oldest first (`e1rm_history.sort(key=...)`, a
stable sort; `insertionSort` with `≤` is stable in the same sense). -/
def sortedPoints (meta : String → Metadata) (bodyweight : ℚ) (exercise_id : String)
    (recent : List WorkoutDoc) : List (ℤ × ℚ) :=
  (datedPoints meta bodyweight exercise_id recent).insertionSort (fun a b => a.1 ≤ b.1)

/-- `detect_plateau` from the source.  With fewer than 4 points it reports
`insufficient_data`.  When some retained point has no date, Python's
`list.sort` raises comparing `None` against a datetime (the history has at
least 4 entries, so the `None` is always compared), and the surrounding
`except` returns the `error` dict.  Otherwise the history is sorted by date
ascending and the last 4 points are examined. -/
def detect_plateau (meta : String → Metadata) (bodyweight : ℚ) (exercise_id : String)
    (recent : List WorkoutDoc) : PlateauData :=
  if (plateauPoints meta bodyweight exercise_id recent).length < 4 then
    { isPlateaued := false, plateauDays := 0, trend := "insufficient_data", trendPercent := none }
  else if (plateauPoints meta bodyweight exercise_id recent).any (fun h => h.1.isNone) then
    { isPlateaued := false, plateauDays := 0, trend := "error", trendPercent := none }
  else
    plateauFromPoints ((sortedPoints meta bodyweight exercise_id recent).drop
      ((sortedPoints meta bodyweight exercise_id recent).length - 4))

/-- Per-user-per-exercise analytics accumulator (`exercise_analytics` entries
in `all_users_analytics`). -/
structure ExerciseAnalytics where
  meta : Metadata
  e1RM : ℚ
  totalVolume : ℚ
  totalSets : ℕ
  totalReps : ℚ
  totalEffectiveReps : ℚ
  averageIntensity : ℚ
  averageIntensityPercent : ℤ
  intensityDist : List (ℤ × ℕ)
  stalenessScore : ℤ
  plateauData : PlateauData
  prs : List (String × PRRecord)
deriving DecidableEq

/-- First-encounter creation of the accumulator (source lines 618-637). -/
def initAnalytics (m : Metadata) (staleness : ℤ) (plateau : PlateauData)
    (r : ExResult) : ExerciseAnalytics :=
  { meta := m, e1RM := r.e1RM, totalVolume := r.volume, totalSets := r.totalSets,
    totalReps := r.totalReps, totalEffectiveReps := (r.effectiveReps : ℚ),
    averageIntensity := if r.totalReps > 0 then r.volume / r.totalReps else 0,
    averageIntensityPercent := r.averageIntensityPercent,
    intensityDist := r.intensityDist, stalenessScore := staleness,
    plateauData := plateau, prs := r.prs }

/-- Cross-workout PR merge (source lines 665-668): for each label of the new
table, replace the stored record iff absent or strictly beaten on the
(rounded) e1RM. -/
def mergePRs (ea new : List (String × PRRecord)) : List (String × PRRecord) :=
  new.foldl (fun acc p =>
    match dictGet acc p.1 with
    | none => dictSet acc p.1 p.2
    | some old => if p.2.e1RM > old.e1RM then dictSet acc p.1 p.2 else acc) ea

/-- Intensity-distribution merge (source lines 661-663). -/
def mergeDist (ea new : List (ℤ × ℕ)) : List (ℤ × ℕ) :=
  new.foldl (fun acc p => dictAdd acc p.1 p.2) ea

/-- Subsequent-encounter merge of one workout's exercise result into the
accumulator (source lines 639-668): metadata refreshed, e1RM takes the
running maximum, totals summed, windowed snapshots overwritten. -/
def mergeAnalytics (m : Metadata) (staleness : ℤ) (plateau : PlateauData)
    (ea : ExerciseAnalytics) (r : ExResult) : ExerciseAnalytics :=
  let e1 := if r.e1RM > ea.e1RM then r.e1RM else ea.e1RM
  let tv := ea.totalVolume + r.volume
  let tr := ea.totalReps + r.totalReps
  { meta := m, e1RM := e1, totalVolume := tv,
    totalSets := ea.totalSets + r.totalSets, totalReps := tr,
    totalEffectiveReps := ea.totalEffectiveReps + (r.effectiveReps : ℚ),
    averageIntensity := if tr > 0 then tv / tr else 0,
    averageIntensityPercent := r.averageIntensityPercent,
    intensityDist := mergeDist ea.intensityDist r.intensityDist,
    stalenessScore := staleness, plateauData := plateau,
    prs := mergePRs ea.prs r.prs }

/-- Sequence of merges applied to an accumulator over the rest of a run; each
encounter carries its own refreshed metadata and windowed snapshots. -/
def runMerges (ea : ExerciseAnalytics)
    (ws : List (Metadata × ℤ × PlateauData × ExResult)) : ExerciseAnalytics :=
  ws.foldl (fun acc w => mergeAnalytics w.1 w.2.1 w.2.2.1 acc w.2.2.2) ea

/-- Raw workout-log document as pulled from storage for the two-pass run. -/
structure LogDoc where
  id : ℕ
  userId : Option String
  exercises : List WorkoutEx
  completedDate : Option ℤ
  date : Option ℤ
deriving DecidableEq

/-- Effective date of a log: `completedDate or date` (Python `or` falls
through on a missing value). -/
def effDate (l : LogDoc) : Option ℤ :=
  match l.completedDate with
  | some d => some d
  | none => l.date

/-- First pass of `process_workouts` (source lines 403-410): group logs by
`userId`, dropping logs whose `userId` is missing, preserving first-seen
user order and per-user log order. -/
def groupByUser (logs : List LogDoc) : List (String × List LogDoc) :=
  logs.foldl (fun acc l =>
    match l.userId with
    | none => acc
    | some uid => dictSet acc uid (((dictGet acc uid).getD []) ++ [l])) []

/-- Per-user date sort (source lines 413-417), newest first.  When the group
has at least two logs and some log has no usable date, Python's `list.sort`
compares `None` against a datetime and raises `TypeError`; that exception
propagates to the top-level handler, which abandons the whole run. -/
def sortUserLogs (logs : List LogDoc) : Except Unit (List LogDoc) :=
  if 2 ≤ logs.length ∧ logs.any (fun l => (effDate l).isNone) then Except.error ()
  else Except.ok (logs.insertionSort (fun a b => (effDate b).getD 0 ≤ (effDate a).getD 0))

/-- Skeleton of the second pass: which log ids survive the
missing-required-field check (source lines 437-439) and get processed.  The
sorting of every user's list happens before any log is processed; a sort
failure aborts the run (`Except.error`). -/
def processedIds (logs : List LogDoc) : Except Unit (List ℕ) := do
  let groups := groupByUser logs
  let sorted ← groups.mapM (fun g => do
    let ls ← sortUserLogs g.2
    pure (g.1, ls))
  pure (sorted.foldl (fun acc g =>
    acc ++ g.2.filterMap (fun l =>
      if l.userId.isSome && !l.exercises.isEmpty && (effDate l).isSome then some l.id
      else none)) [])

/-- Modelled from the spec: a data point is within 2% of the maximum when the
absolute difference is at most 2% of that maximum. -/
def within2pct (h m : ℚ) : Prop := |h - m| ≤ (2/100) * m

instance : DecidablePred fun p : ℚ × ℚ => within2pct p.1 p.2 := by
  intro p
  unfold within2pct
  infer_instance

/-- Metadata resolver answering the documented default for every id (the
`get_exercise_metadata` fallback). -/
def metaU : String → Metadata := fun _ =>
  ⟨"Unknown", "Unknown", "Unknown", false, "Unknown", "Unknown"⟩

/-- Window workout fixtures for the plateau counterexample: three workouts of
exercise `ex1` with a 100 e1RM (50 times 1 + 30/30) and a fourth, most
recent, with a 200 e1RM. -/
def plateauW1 : WorkoutDoc := ⟨some 1, [⟨"ex1", ExShape.current [⟨50, 30⟩]⟩]⟩

def plateauW2 : WorkoutDoc := ⟨some 2, [⟨"ex1", ExShape.current [⟨50, 30⟩]⟩]⟩

def plateauW3 : WorkoutDoc := ⟨some 3, [⟨"ex1", ExShape.current [⟨50, 30⟩]⟩]⟩

def plateauW4 : WorkoutDoc := ⟨some 4, [⟨"ex1", ExShape.current [⟨100, 30⟩]⟩]⟩

/-- Log fixture with a usable date. -/
def logWithDate : LogDoc := ⟨1, some "u", [⟨"ex1", ExShape.current [⟨100, 5⟩]⟩], some 5, none⟩

/-- Log fixture of the same user lacking both `completedDate` and `date`. -/
def logNoDate : LogDoc := ⟨2, some "u", [⟨"ex1", ExShape.current [⟨100, 5⟩]⟩], none, none⟩

end Migrate

namespace Migrate

/-! Basic facts about the Python rounding and truncation helpers. -/

theorem floor_le_pyRound (q : ℚ) : ⌊q⌋ ≤ pyRound q := by
  unfold pyRound
  split_ifs <;> omega

theorem pyRound_le_floor_add_one (q : ℚ) : pyRound q ≤ ⌊q⌋ + 1 := by
  unfold pyRound
  split_ifs <;> omega

theorem pyRound_intCast (n : ℤ) : pyRound (n : ℚ) = n := by
  unfold pyRound
  rw [Int.floor_intCast]
  have h : (n : ℚ) - n = 0 := by ring
  rw [h]
  norm_num

theorem pyRound_nearest (q : ℚ) : |q - (pyRound q : ℚ)| ≤ 1/2 := by
  have h0 : (⌊q⌋ : ℚ) ≤ q := Int.floor_le q
  have h1 : q < ⌊q⌋ + 1 := Int.lt_floor_add_one q
  unfold pyRound
  split_ifs with hf hg he
  · rw [abs_le]
    constructor <;> linarith
  · rw [abs_le]
    push_cast
    constructor <;> linarith
  · rw [abs_le]
    have hx : q - ⌊q⌋ = 1/2 := le_antisymm (not_lt.mp hg) (not_lt.mp hf)
    constructor <;> linarith
  · rw [abs_le]
    have hx : q - ⌊q⌋ = 1/2 := le_antisymm (not_lt.mp hg) (not_lt.mp hf)
    push_cast
    constructor <;> linarith

theorem pyRound_le_of_le_intCast {q : ℚ} {m : ℤ} (h : q ≤ (m : ℚ)) : pyRound q ≤ m := by
  rcases eq_or_lt_of_le h with heq | hlt
  · rw [heq, pyRound_intCast]
  · have hfl : ⌊q⌋ < m := Int.floor_lt.mpr hlt
    have := pyRound_le_floor_add_one q
    omega

theorem le_pyRound_of_lt {q : ℚ} {m : ℤ} (h : (m : ℚ) < q) : m ≤ pyRound q := by
  have hfl : m ≤ ⌊q⌋ := Int.le_floor.mpr (le_of_lt h)
  have := floor_le_pyRound q
  omega

theorem pyTrunc_intCast (n : ℤ) : pyTrunc (n : ℚ) = n := by
  unfold pyTrunc
  split_ifs <;> simp

theorem legacyNum_intCast (n : ℤ) : legacyNum (n : ℚ) = n := by
  unfold legacyNum
  split_ifs with h
  · exact_mod_cast h.symm
  · rw [pyTrunc_intCast]

theorem legacyNum_nonpos {q : ℚ} (h : q ≤ 0) : legacyNum q ≤ 0 := by
  unfold legacyNum
  split_ifs with h0
  · exact le_refl 0
  · unfold pyTrunc
    have hq : q < 0 := lt_of_le_of_ne h h0
    rw [if_neg (not_le.mpr hq)]
    have : ⌈q⌉ ≤ (0 : ℤ) := Int.ceil_le.mpr (by exact_mod_cast h)
    exact_mod_cast this

/-! Evaluation helpers for concrete inputs. -/

theorem absQ_eq_abs (q : ℚ) : absQ q = |q| := by
  unfold absQ
  rcases lt_or_ge q 0 with h | h
  · rw [if_pos h, abs_of_neg h]
  · rw [if_neg (not_lt.mpr h), abs_of_nonneg h]

theorem effectiveWeight_bw (bw w : ℚ) : effectiveWeight "Bodyweight" bw w = bw := by
  simp [effectiveWeight]

theorem effectiveWeight_unknown (bw w : ℚ) : effectiveWeight "Unknown" bw w = w := by
  simp [effectiveWeight]

theorem dictGet_nil {κ α : Type} [DecidableEq κ] (k : κ) :
    dictGet ([] : List (κ × α)) k = none := rfl

theorem dictGet_cons_self {κ α : Type} [DecidableEq κ] (k : κ) (v : α) (t : List (κ × α)) :
    dictGet ((k, v) :: t) k = some v := by
  simp [dictGet]

theorem dictSet_nil {κ α : Type} [DecidableEq κ] (k : κ) (v : α) :
    dictSet ([] : List (κ × α)) k v = [(k, v)] := rfl

theorem dictSet_cons_self {κ α : Type} [DecidableEq κ] (k : κ) (v w : α) (t : List (κ × α)) :
    dictSet ((k, v) :: t) k w = (k, w) :: t := by
  simp [dictSet]

theorem rpe_raw_low : calculate_effective_rpe 20 8 200 = 5 := by
  norm_num [calculate_effective_rpe, RPE_TO_PERCENTAGE, rpeStep, absQ]

theorem rpe_adjusted_high : calculate_effective_rpe 180 8 200 = 9 := by
  norm_num [calculate_effective_rpe, RPE_TO_PERCENTAGE, rpeStep, absQ]

theorem bestE1RM_fixture_50 : bestE1RMCurrent "Unknown" 0 [⟨50, 30⟩] = 100 := by
  norm_num [bestE1RMCurrent, setE1RM, effectiveWeight_unknown, max_def]

theorem bestE1RM_fixture_100 : bestE1RMCurrent "Unknown" 0 [⟨100, 30⟩] = 200 := by
  norm_num [bestE1RMCurrent, setE1RM, effectiveWeight_unknown, max_def]

/-! Staleness bounds. -/

theorem stalenessLoop_nonneg (meta : String → Metadata) (exid : String) (cd : ℤ)
    (recent : List WorkoutDoc) (h : ∀ w ∈ recent, w.date.getD cd ≤ cd) :
    ∀ d0 : ℤ, 0 ≤ d0 → 0 ≤ (stalenessLoop meta exid cd recent d0).1 := by
  induction recent with
  | nil =>
    intro d0 h0
    exact h0
  | cons w rest ih =>
    intro d0 h0
    have hrest : ∀ w' ∈ rest, w'.date.getD cd ≤ cd :=
      fun w' hw' => h w' (List.mem_cons_of_mem _ hw')
    have hw : w.date.getD cd ≤ cd := h w (List.mem_cons_self _ _)
    rw [stalenessLoop]
    cases hd : w.date with
    | none => exact ih hrest d0 h0
    | some wd =>
      rw [hd] at hw
      simp only [Option.getD_some] at hw
      split_ifs with h1 h2
      · exact ih hrest (cd - wd) (by omega)
      · exact h0
      · exact ih hrest d0 h0

theorem staleness_le_100 (meta : String → Metadata) (exid : String) (cd : ℤ)
    (recent : List WorkoutDoc) : calculate_staleness_score meta exid cd recent ≤ 100 := by
  unfold calculate_staleness_score
  dsimp only
  split_ifs <;> exact min_le_left _ _

theorem staleness_nonneg (meta : String → Metadata) (exid : String) (cd : ℤ)
    (recent : List WorkoutDoc) (h : ∀ w ∈ recent, w.date.getD cd ≤ cd) :
    0 ≤ calculate_staleness_score meta exid cd recent := by
  have hd : 0 ≤ (stalenessLoop meta exid cd recent 0).1 :=
    stalenessLoop_nonneg meta exid cd recent h 0 le_rfl
  unfold calculate_staleness_score
  dsimp only
  split_ifs
  · exact le_min (by norm_num) (by omega)
  · exact le_min (by norm_num) (by omega)

/-! Vacuity of the plateau check. -/

theorem length_filterMap_dates (l : List (Option ℤ × ℚ)) (h : ∀ x ∈ l, x.1.isSome) :
    (l.filterMap (fun p => p.1.map (fun d => (d, p.2)))).length = l.length := by
  induction l with
  | nil => rfl
  | cons x t ih =>
    have hx : x.1.isSome := h x (List.mem_cons_self _ _)
    obtain ⟨d, hd⟩ := Option.isSome_iff_exists.mp hx
    rw [List.filterMap_cons, hd]
    simp only [Option.map_some', List.length_cons]
    rw [ih (fun y hy => h y (List.mem_cons_of_mem _ hy))]

theorem plateauPoints_pos (meta : String → Metadata) (bodyweight : ℚ) (exid : String)
    (recent : List WorkoutDoc) : ∀ x ∈ plateauPoints meta bodyweight exid recent, 0 < x.2 := by
  intro x hx
  unfold plateauPoints at hx
  rw [List.mem_filterMap] at hx
  obtain ⟨w, _, hfx⟩ := hx
  rcases hfind : w.exercises.find? (fun ex => ex.exerciseId == exid) with _ | ex
  · rw [hfind] at hfx
    simp at hfx
  · rw [hfind] at hfx
    dsimp only at hfx
    split_ifs at hfx with hpos
    rw [Option.some_inj] at hfx
    rw [← hfx]
    exact hpos

theorem sortedPoints_pos (meta : String → Metadata) (bodyweight : ℚ) (exid : String)
    (recent : List WorkoutDoc) : ∀ x ∈ sortedPoints meta bodyweight exid recent, 0 < x.2 := by
  intro x hx
  unfold sortedPoints at hx
  rw [(List.perm_insertionSort _ _).mem_iff] at hx
  unfold datedPoints at hx
  rw [List.mem_filterMap] at hx
  obtain ⟨p, hp, hpx⟩ := hx
  rw [Option.map_eq_some'] at hpx
  obtain ⟨d, _, hdx⟩ := hpx
  have := plateauPoints_pos meta bodyweight exid recent p hp
  rw [← hdx]
  exact this

theorem plateauOf4_isPlateaued (p0 p1 p2 p3 : ℤ × ℚ) (h : 0 ≤ p0.2) :
    (plateauOf4 p0 p1 p2 p3).isPlateaued = true := by
  unfold plateauOf4
  dsimp only
  simp only [Bool.and_eq_true, decide_eq_true_eq]
  have hm0 : p0.2 ≤ max (max (max p0.2 p1.2) p2.2) p3.2 :=
    le_max_of_le_left (le_max_of_le_left (le_max_left _ _))
  have hm1 : p1.2 ≤ max (max (max p0.2 p1.2) p2.2) p3.2 :=
    le_max_of_le_left (le_max_of_le_left (le_max_right _ _))
  have hm2 : p2.2 ≤ max (max (max p0.2 p1.2) p2.2) p3.2 :=
    le_max_of_le_left (le_max_right _ _)
  have hm3 : p3.2 ≤ max (max (max p0.2 p1.2) p2.2) p3.2 := le_max_right _ _
  have hM : 0 ≤ max (max (max p0.2 p1.2) p2.2) p3.2 := le_trans h hm0
  refine ⟨⟨⟨?_, ?_⟩, ?_⟩, ?_⟩ <;> nlinarith

theorem detect_plateau_vacuous (meta : String → Metadata) (bodyweight : ℚ) (exid : String)
    (recent : List WorkoutDoc)
    (hlen : 4 ≤ (plateauPoints meta bodyweight exid recent).length)
    (hdates : ∀ h ∈ plateauPoints meta bodyweight exid recent, h.1.isSome) :
    (detect_plateau meta bodyweight exid recent).isPlateaued = true := by
  have hany : (plateauPoints meta bodyweight exid recent).any (fun h => h.1.isNone) = false := by
    rw [List.any_eq_false]
    intro x hx
    have hs := hdates x hx
    rw [Option.isSome_iff_ne_none] at hs
    simp only [Option.isNone_iff_eq_none]
    exact hs
  have hdl : (datedPoints meta bodyweight exid recent).length =
      (plateauPoints meta bodyweight exid recent).length :=
    length_filterMap_dates _ hdates
  have hsl : (sortedPoints meta bodyweight exid recent).length =
      (datedPoints meta bodyweight exid recent).length := by
    unfold sortedPoints
    exact List.length_insertionSort _ _
  have h4 : ((sortedPoints meta bodyweight exid recent).drop
      ((sortedPoints meta bodyweight exid recent).length - 4)).length = 4 := by
    rw [List.length_drop]
    omega
  unfold detect_plateau
  rw [if_neg (by omega), if_neg (by rw [hany]; exact Bool.false_ne_true)]
  rcases hdrop : (sortedPoints meta bodyweight exid recent).drop
      ((sortedPoints meta bodyweight exid recent).length - 4) with _ | ⟨p0, t0⟩
  · rw [hdrop] at h4
    simp at h4
  rcases t0 with _ | ⟨p1, t1⟩
  · rw [hdrop] at h4
    simp at h4
  rcases t1 with _ | ⟨p2, t2⟩
  · rw [hdrop] at h4
    simp at h4
  rcases t2 with _ | ⟨p3, t3⟩
  · rw [hdrop] at h4
    simp at h4
  have hp0 : p0 ∈ sortedPoints meta bodyweight exid recent :=
    List.drop_subset _ _ (hdrop ▸ List.mem_cons_self _ _)
  exact plateauOf4_isPlateaued p0 p1 p2 p3
    (le_of_lt (sortedPoints_pos meta bodyweight exid recent p0 hp0))

/-! Merge monotonicity. -/

theorem mergeAnalytics_e1RM_mono (m : Metadata) (s : ℤ) (p : PlateauData)
    (ea : ExerciseAnalytics) (r : ExResult) :
    ea.e1RM ≤ (mergeAnalytics m s p ea r).e1RM := by
  unfold mergeAnalytics
  dsimp only
  split_ifs with h
  · exact le_of_lt h
  · exact le_refl _

theorem runMerges_e1RM_mono (ea : ExerciseAnalytics)
    (ws : List (Metadata × ℤ × PlateauData × ExResult)) :
    ea.e1RM ≤ (runMerges ea ws).e1RM := by
  induction ws generalizing ea with
  | nil => exact le_refl _
  | cons w rest ih =>
    have h1 : ea.e1RM ≤ (mergeAnalytics w.1 w.2.1 w.2.2.1 ea w.2.2.2).e1RM :=
      mergeAnalytics_e1RM_mono w.1 w.2.1 w.2.2.1 ea w.2.2.2
    have h2 := ih (mergeAnalytics w.1 w.2.1 w.2.2.1 ea w.2.2.2)
    calc ea.e1RM ≤ (mergeAnalytics w.1 w.2.1 w.2.2.1 ea w.2.2.2).e1RM := h1
      _ ≤ _ := h2

/-! Association-list dictionary lemmas. -/

theorem dictGet_dictSet_self {κ α : Type} [DecidableEq κ] (l : List (κ × α)) (k : κ) (v : α) :
    dictGet (dictSet l k v) k = some v := by
  induction l with
  | nil => simp [dictSet, dictGet]
  | cons p t ih =>
    unfold dictSet
    split_ifs with h
    · simp [dictGet]
    · unfold dictGet
      rw [if_neg h]
      exact ih

theorem dictGet_dictSet_ne {κ α : Type} [DecidableEq κ] (l : List (κ × α)) (k k' : κ) (v : α)
    (h : k' ≠ k) : dictGet (dictSet l k' v) k = dictGet l k := by
  induction l with
  | nil => simp [dictSet, dictGet, h]
  | cons p t ih =>
    unfold dictSet
    split_ifs with hp
    · unfold dictGet
      rw [if_neg (hp ▸ h), if_neg (hp ▸ h)]
    · unfold dictGet
      split_ifs with hpk
      · rfl
      · exact ih

/-! PR-table behavior of the per-set loop body. -/

theorem applySet_prs (t : String) (bw ce : ℚ) (d : ℤ) (st : SetState) (w r : ℚ) :
    (applySet t bw ce d st w r).prs =
      match dictGet st.prs (get_rep_range_category r) with
      | none => dictSet st.prs (get_rep_range_category r) (newPR t bw w r d)
      | some pr =>
          if setE1RM t bw w r > (pr.e1RM : ℚ) then
            dictSet st.prs (get_rep_range_category r) (newPR t bw w r d)
          else st.prs := by
  rfl

theorem applySet_pr_mono (t : String) (bw ce : ℚ) (d : ℤ) (st : SetState) (w r : ℚ)
    (lbl : String) (pr : PRRecord) (h : dictGet st.prs lbl = some pr) :
    ∃ pr2, dictGet (applySet t bw ce d st w r).prs lbl = some pr2 ∧ pr.e1RM ≤ pr2.e1RM := by
  rw [applySet_prs]
  rcases hrr : dictGet st.prs (get_rep_range_category r) with _ | pr0
  · have hne : get_rep_range_category r ≠ lbl := by
      intro he
      rw [he, h] at hrr
      cases hrr
    exact ⟨pr, by rw [dictGet_dictSet_ne _ _ _ _ hne]; exact h, le_refl _⟩
  · dsimp only
    split_ifs with hgt
    · by_cases he : get_rep_range_category r = lbl
      · subst he
        rw [h] at hrr
        cases hrr
        refine ⟨newPR t bw w r d, dictGet_dictSet_self _ _ _, ?_⟩

        exact le_pyRound_of_lt hgt
      · exact ⟨pr, by rw [dictGet_dictSet_ne _ _ _ _ he]; exact h, le_refl _⟩
    · exact ⟨pr, h, le_refl _⟩

theorem applySet_pr_own (t : String) (bw ce : ℚ) (d : ℤ) (st : SetState) (w r : ℚ) :
    ∃ pr2, dictGet (applySet t bw ce d st w r).prs (get_rep_range_category r) = some pr2 ∧
      pyRound (setE1RM t bw w r) ≤ pr2.e1RM := by
  rw [applySet_prs]
  rcases hrr : dictGet st.prs (get_rep_range_category r) with _ | pr0
  · exact ⟨newPR t bw w r d, dictGet_dictSet_self _ _ _, le_refl _⟩
  · dsimp only
    split_ifs with hgt
    · exact ⟨newPR t bw w r d, dictGet_dictSet_self _ _ _, le_refl _⟩
    · exact ⟨pr0, hrr, pyRound_le_of_le_intCast (not_lt.mp hgt)⟩

theorem applySet_pr_tie (t : String) (bw ce : ℚ) (d : ℤ) (st : SetState) (w r : ℚ)
    (pr : PRRecord) (h : dictGet st.prs (get_rep_range_category r) = some pr)
    (hle : setE1RM t bw w r ≤ (pr.e1RM : ℚ)) :
    (applySet t bw ce d st w r).prs = st.prs := by
  rw [applySet_prs, h]
  dsimp only
  rw [if_neg (not_lt.mpr hle)]

theorem foldCurrent_pr_mono (t : String) (bw ce : ℚ) (d : ℤ) (sets : List SetEntry)
    (st : SetState) (lbl : String) (pr : PRRecord) (h : dictGet st.prs lbl = some pr) :
    ∃ pr2, dictGet ((sets.foldl (currentStep t bw ce d) st).prs) lbl = some pr2 ∧
      pr.e1RM ≤ pr2.e1RM := by
  induction sets generalizing st pr with
  | nil => exact ⟨pr, h, le_refl _⟩
  | cons a rest ih =>
    rw [List.foldl_cons]
    unfold currentStep
    split_ifs with ha
    · obtain ⟨pr1, h1, hle1⟩ := applySet_pr_mono t bw ce d st a.weight a.reps lbl pr h
      obtain ⟨pr2, h2, hle2⟩ := ih _ pr1 h1
      exact ⟨pr2, h2, le_trans hle1 hle2⟩
    · exact ih st pr h

theorem foldCurrent_pr_own (t : String) (bw ce : ℚ) (d : ℤ) (sets : List SetEntry)
    (st : SetState) (s : SetEntry) (hmem : s ∈ sets) (hpos : 0 < s.reps) :
    ∃ pr, dictGet ((sets.foldl (currentStep t bw ce d) st).prs)
        (get_rep_range_category s.reps) = some pr ∧
      pyRound (setE1RM t bw s.weight s.reps) ≤ pr.e1RM := by
  induction sets generalizing st with
  | nil => cases hmem
  | cons a rest ih =>
    rw [List.foldl_cons]
    rcases List.mem_cons.mp hmem with rfl | hmem'
    · have hstep : currentStep t bw ce d st s = applySet t bw ce d st s.weight s.reps := by
        unfold currentStep
        rw [if_pos hpos]
      rw [hstep]
      obtain ⟨pr1, h1, hle1⟩ := applySet_pr_own t bw ce d st s.weight s.reps
      obtain ⟨pr2, h2, hle2⟩ := foldCurrent_pr_mono t bw ce d rest _ _ pr1 h1
      exact ⟨pr2, h2, le_trans hle1 hle2⟩
    · exact ih (currentStep t bw ce d st a) hmem'

/-! PR merge behavior. -/

theorem mergePRs_not_mem (ea new : List (String × PRRecord)) (lbl : String)
    (h : lbl ∉ new.map Prod.fst) :
    dictGet (mergePRs ea new) lbl = dictGet ea lbl := by
  induction new generalizing ea with
  | nil => rfl
  | cons p rest ih =>
    have hp : p.1 ≠ lbl := by
      intro he
      exact h (by rw [List.map_cons, he]; exact List.mem_cons_self _ _)
    have hrest : lbl ∉ rest.map Prod.fst := fun hm => h (by rw [List.map_cons]; exact List.mem_cons_of_mem _ hm)
    unfold mergePRs
    rw [List.foldl_cons]
    have hstep : ∀ ea' : List (String × PRRecord),
        dictGet (match dictGet ea' p.1 with
          | none => dictSet ea' p.1 p.2
          | some old => if p.2.e1RM > old.e1RM then dictSet ea' p.1 p.2 else ea') lbl =
        dictGet ea' lbl := by
      intro ea'
      rcases dictGet ea' p.1 with _ | old
      · exact dictGet_dictSet_ne _ _ _ _ hp
      · dsimp only
        split_ifs
        · exact dictGet_dictSet_ne _ _ _ _ hp
        · rfl
    have := ih (match dictGet ea p.1 with
      | none => dictSet ea p.1 p.2
      | some old => if p.2.e1RM > old.e1RM then dictSet ea p.1 p.2 else ea) hrest
    unfold mergePRs at this
    rw [this, hstep]

theorem mergePRs_max (ea new : List (String × PRRecord)) (lbl : String) (prE prN : PRRecord)
    (hnd : (new.map Prod.fst).Nodup) (hE : dictGet ea lbl = some prE)
    (hN : dictGet new lbl = some prN) :
    dictGet (mergePRs ea new) lbl = some (if prN.e1RM > prE.e1RM then prN else prE) := by
  induction new generalizing ea prE with
  | nil => cases hN
  | cons p rest ih =>
    rw [List.map_cons, List.nodup_cons] at hnd
    unfold mergePRs
    rw [List.foldl_cons]
    by_cases hpl : p.1 = lbl
    · have hpn : p.2 = prN := by
        unfold dictGet at hN
        rw [if_pos hpl] at hN
        exact Option.some_inj.mp hN
      subst hpn
      subst hpl
      have hrest : p.1 ∉ rest.map Prod.fst := hnd.1
      have hfold := mergePRs_not_mem (match dictGet ea p.1 with
        | none => dictSet ea p.1 p.2
        | some old => if p.2.e1RM > old.e1RM then dictSet ea p.1 p.2 else ea) rest p.1 hrest
      unfold mergePRs at hfold
      rw [hfold, hE]
      dsimp only
      split_ifs with hgt
      · exact dictGet_dictSet_self _ _ _
      · exact hE
    · have hN' : dictGet rest lbl = some prN := by
        unfold dictGet at hN
        rw [if_neg hpl] at hN
        exact hN
      have hE' : dictGet (match dictGet ea p.1 with
          | none => dictSet ea p.1 p.2
          | some old => if p.2.e1RM > old.e1RM then dictSet ea p.1 p.2 else ea) lbl = some prE := by
        rcases dictGet ea p.1 with _ | old
        · rw [dictGet_dictSet_ne _ _ _ _ hpl]
          exact hE
        · dsimp only
          split_ifs
          · rw [dictGet_dictSet_ne _ _ _ _ hpl]
            exact hE
          · exact hE
      have := ih _ prE hnd.2 hE' hN'
      unfold mergePRs at this
      exact this

/-! Equivalence of the two exercise-entry shapes on well-behaved data. -/

theorem effectiveWeight_other (t : String) (bw w : ℚ) (h1 : t ≠ "Bodyweight")
    (h2 : t ≠ "Bodyweight Loadable") : effectiveWeight t bw w = w := by
  unfold effectiveWeight
  rw [if_neg h1, if_neg h2]

theorem legacyFold_eq_currentFold (t : String) (bw ce : ℚ) (d : ℤ) :
    ∀ (l : List SetEntry) (st : SetState) (k : ℕ) (cs : List (ℚ × ℚ)),
      (∀ s ∈ l, (∃ n : ℤ, s.weight = (n : ℚ)) ∧ (∃ n : ℤ, s.reps = (n : ℚ)) ∧ 0 < s.reps) →
      (l.map (fun s => (s.reps, s.weight, true))).foldl (legacyStep t bw ce d) (st, k, cs) =
        (l.foldl (currentStep t bw ce d) st, k + l.length,
         cs ++ l.map (fun s => (effectiveWeight t bw s.weight, s.reps))) := by
  intro l
  induction l with
  | nil =>
    intro st k cs _
    simp
  | cons a rest ih =>
    intro st k cs hl
    obtain ⟨⟨nw, hnw⟩, ⟨nr, hnr⟩, hpos⟩ := hl a (List.mem_cons_self _ _)
    rw [List.map_cons, List.foldl_cons]
    have hstep : legacyStep t bw ce d (st, k, cs) (a.reps, a.weight, true) =
        (applySet t bw ce d st a.weight a.reps, k + 1,
         cs ++ [(effectiveWeight t bw a.weight, a.reps)]) := by
      unfold legacyStep
      dsimp only
      rw [if_pos rfl]
      have hrn : legacyNum a.reps = a.reps := by
        rw [hnr]
        exact legacyNum_intCast nr
      have hwn : legacyNum a.weight = a.weight := by
        rw [hnw]
        exact legacyNum_intCast nw
      rw [hrn, hwn, if_pos hpos]
    rw [hstep]
    have hcur : currentStep t bw ce d st a = applySet t bw ce d st a.weight a.reps := by
      unfold currentStep
      rw [if_pos hpos]
    rw [List.foldl_cons, hcur]
    rw [ih (applySet t bw ce d st a.weight a.reps) (k + 1)
      (cs ++ [(effectiveWeight t bw a.weight, a.reps)])
      (fun s hs => hl s (List.mem_cons_of_mem _ hs))]
    rw [List.map_cons, List.length_cons]
    refine congrArg _ ?_
    refine congr_arg₂ _ ?_ ?_
    · omega
    · simp

/-! The closest-RPE loop computes an argmin of the absolute difference. -/

theorem rpeFold_argmin (adjusted : ℚ) (l : List (ℚ × ℚ)) :
    ∀ (b pb : ℚ), ∃ c pc : ℚ,
      l.foldl (rpeStep adjusted) (b, some (absQ (adjusted - pb))) =
        (c, some (absQ (adjusted - pc))) ∧
      ((c, pc) = (b, pb) ∨ (c, pc) ∈ l) ∧
      absQ (adjusted - pc) ≤ absQ (adjusted - pb) ∧
      ∀ q ∈ l, absQ (adjusted - pc) ≤ absQ (adjusted - q.2) := by
  induction l with
  | nil =>
    intro b pb
    exact ⟨b, pb, rfl, Or.inl rfl, le_refl _, by simp⟩
  | cons e t ih =>
    intro b pb
    rw [List.foldl_cons]
    by_cases hlt : absQ (adjusted - e.2) < absQ (adjusted - pb)
    · have hstep : rpeStep adjusted (b, some (absQ (adjusted - pb))) e =
          (e.1, some (absQ (adjusted - e.2))) := by
        unfold rpeStep
        dsimp only
        rw [if_pos hlt]
      rw [hstep]
      obtain ⟨c, pc, h1, h2, h3, h4⟩ := ih e.1 e.2
      refine ⟨c, pc, h1, ?_, le_trans h3 (le_of_lt hlt), ?_⟩
      · rcases h2 with h | h
        · exact Or.inr (by rw [h, Prod.mk.eta]; exact List.mem_cons_self _ _)
        · exact Or.inr (List.mem_cons_of_mem _ h)
      · intro q hq
        rcases List.mem_cons.mp hq with rfl | hq'
        · exact h3
        · exact h4 q hq'
    · have hstep : rpeStep adjusted (b, some (absQ (adjusted - pb))) e =
          (b, some (absQ (adjusted - pb))) := by
        unfold rpeStep
        dsimp only
        rw [if_neg hlt]
      rw [hstep]
      obtain ⟨c, pc, h1, h2, h3, h4⟩ := ih b pb
      refine ⟨c, pc, h1, ?_, h3, ?_⟩
      · rcases h2 with h | h
        · exact Or.inl h
        · exact Or.inr (List.mem_cons_of_mem _ h)
      · intro q hq
        rcases List.mem_cons.mp hq with rfl | hq'
        · exact le_trans h3 (not_lt.mp hlt)
        · exact h4 q hq'

theorem calculate_effective_rpe_nearest (weight reps e1rm : ℚ) (h : e1rm ≠ 0) :
    ∃ p : ℚ, (calculate_effective_rpe weight reps e1rm, p) ∈ RPE_TO_PERCENTAGE ∧
      ∀ q ∈ RPE_TO_PERCENTAGE,
        |weight / e1rm + max 0 ((reps - 5) * (2/100)) - p| ≤
          |weight / e1rm + max 0 ((reps - 5) * (2/100)) - q.2| := by
  unfold calculate_effective_rpe
  rw [if_neg h]
  dsimp only
  have htable : RPE_TO_PERCENTAGE = (10, 1) ::
      [((19:ℚ)/2, (98:ℚ)/100), (9, 96/100), (17/2, 94/100), (8, 92/100),
       (15/2, 90/100), (7, 88/100), (13/2, 86/100), (6, 84/100), (5, 82/100)] := rfl
  rw [htable, List.foldl_cons]
  have hstep : rpeStep (weight / e1rm + max 0 ((reps - 5) * (2/100))) (5, none) (10, 1) =
      (10, some (absQ (weight / e1rm + max 0 ((reps - 5) * (2/100)) - 1))) := rfl
  rw [hstep]
  obtain ⟨c, pc, h1, h2, h3, h4⟩ :=
    rpeFold_argmin (weight / e1rm + max 0 ((reps - 5) * (2/100)))
      [((19:ℚ)/2, (98:ℚ)/100), (9, 96/100), (17/2, 94/100), (8, 92/100),
       (15/2, 90/100), (7, 88/100), (13/2, 86/100), (6, 84/100), (5, 82/100)] 10 1
  rw [h1]
  refine ⟨pc, ?_, ?_⟩
  · dsimp only
    rcases h2 with he | he
    · rw [he]
      exact List.mem_cons_self _ _
    · exact List.mem_cons_of_mem _ he
  · intro q hq
    rcases List.mem_cons.mp hq with rfl | hq'
    · simpa [absQ_eq_abs] using h3
    · simpa [absQ_eq_abs] using h4 q hq'

/-! The accumulated effective-rep total stays an integer. -/

theorem runMerges_totalEffectiveReps_integral (ea : ExerciseAnalytics)
    (ws : List (Metadata × ℤ × PlateauData × ExResult))
    (hn : ∃ n : ℤ, ea.totalEffectiveReps = (n : ℚ)) :
    ∃ n : ℤ, (runMerges ea ws).totalEffectiveReps = (n : ℚ) := by
  induction ws generalizing ea with
  | nil => exact hn
  | cons w rest ih =>
    have hcons : runMerges ea (w :: rest) =
        runMerges (mergeAnalytics w.1 w.2.1 w.2.2.1 ea w.2.2.2) rest := by
      unfold runMerges
      rw [List.foldl_cons]
    rw [hcons]
    apply ih
    obtain ⟨n, hne⟩ := hn
    refine ⟨n + w.2.2.2.effectiveReps, ?_⟩
    unfold mergeAnalytics
    dsimp only
    rw [hne]
    push_cast
    ring

end Migrate

namespace Migrate

/-- C1: the claim says plateau detection reports `isPlateaued = true` iff
each of the last 4 chronological points is within 2% of their maximum.  The
code is a slip: its check `e1RM <= max_recent * 1.02` holds for every point
by construction, so whenever at least 4 dated history points exist the
verdict is `true` unconditionally — also for the last-4 series
100, 100, 100, 200, although 100 is not within 2% of the maximum 200. -/
theorem C1_plateau_check_vacuous (meta : String → Metadata) (bodyweight : ℚ) (exid : String)
    (recent : List WorkoutDoc)
    (hlen : 4 ≤ (plateauPoints meta bodyweight exid recent).length)
    (hdates : ∀ h ∈ plateauPoints meta bodyweight exid recent, h.1.isSome) :
    (detect_plateau meta bodyweight exid recent).isPlateaued = true ∧
    ¬ within2pct 100 200 :=
  ⟨detect_plateau_vacuous meta bodyweight exid recent hlen hdates, by
    unfold within2pct
    norm_num⟩

/-- Value of the plateau history on the counterexample window: three
100-e1RM workouts topped by a fresh 200-e1RM one. -/
theorem plateauPoints_fixture :
    plateauPoints metaU 0 "ex1" [plateauW4, plateauW3, plateauW2, plateauW1] =
      [(some 4, 200), (some 3, 100), (some 2, 100), (some 1, 100)] := by
  simp only [plateauPoints, plateauW1, plateauW2, plateauW3, plateauW4, metaU,
    List.filterMap_cons, List.filterMap_nil, List.find?_cons, List.find?_nil,
    beq_self_eq_true, bestE1RM_fixture_50, bestE1RM_fixture_100]
  norm_num

theorem C1_plateau_check_vacuous_witness :
    (detect_plateau metaU 0 "ex1" [plateauW4, plateauW3, plateauW2, plateauW1]).isPlateaued
      = true ∧ ¬ within2pct 100 200 :=
  C1_plateau_check_vacuous metaU 0 "ex1" [plateauW4, plateauW3, plateauW2, plateauW1]
    (by rw [plateauPoints_fixture]; decide)
    (by rw [plateauPoints_fixture]; decide)

/-- C7: a workout log lacking both `completedDate` and `date` does not merely
get skipped: when the same user has another (dated) log, the per-user date
sort compares `None` with a datetime and raises, aborting the entire run, so
not even the well-formed log is processed.  Alone, the dated log is processed
normally. -/
theorem C7_dateless_log_aborts_run :
    processedIds [logWithDate, logNoDate] = Except.error () ∧
    processedIds [logWithDate] = Except.ok [1] := by
  constructor <;> rfl

/-- C8: for every set, the estimated RPE is 5 when e1RM is 0; otherwise it is
the table entry whose percentage is nearest (by absolute difference) to
`weight / e1rm` plus the rep correction `max(0, (reps - 5) * 0.02)`; and the
set's effective-rep contribution is `reps * min(2, (rpe - 6) / 4)` exactly
when weight and reps are positive and the estimated RPE is at least 7,
otherwise zero. -/
theorem C8_rpe_and_effective_reps (weight reps e1rm : ℚ) :
    (e1rm = 0 → calculate_effective_rpe weight reps e1rm = 5) ∧
    (e1rm ≠ 0 → ∃ p : ℚ, (calculate_effective_rpe weight reps e1rm, p) ∈ RPE_TO_PERCENTAGE ∧
      ∀ q ∈ RPE_TO_PERCENTAGE,
        |weight / e1rm + max 0 ((reps - 5) * (2/100)) - p| ≤
          |weight / e1rm + max 0 ((reps - 5) * (2/100)) - q.2|) ∧
    (effectiveRepsContribution weight reps e1rm =
      if 0 < weight ∧ 0 < reps ∧ 7 ≤ calculate_effective_rpe weight reps e1rm then
        reps * min 2 ((calculate_effective_rpe weight reps e1rm - 6) / 4)
      else 0) := by
  refine ⟨fun h0 => by unfold calculate_effective_rpe; rw [if_pos h0],
    calculate_effective_rpe_nearest weight reps e1rm, ?_⟩
  unfold effectiveRepsContribution
  dsimp only
  by_cases h1 : reps > 0 ∧ weight > 0
  · rw [if_pos h1]
    by_cases h2 : calculate_effective_rpe weight reps e1rm ≥ 7
    · rw [if_pos h2, if_pos ⟨h1.2, h1.1, h2⟩]
    · rw [if_neg h2, if_neg (fun hc => h2 hc.2.2)]
  · rw [if_neg h1, if_neg (fun hc => h1 ⟨hc.2.1, hc.1⟩)]

theorem C8_rpe_and_effective_reps_witness :
    ∃ p : ℚ, (calculate_effective_rpe 90 5 100, p) ∈ RPE_TO_PERCENTAGE ∧
      ∀ q ∈ RPE_TO_PERCENTAGE,
        |(90 : ℚ) / 100 + max 0 (((5 : ℚ) - 5) * (2/100)) - p| ≤
          |(90 : ℚ) / 100 + max 0 (((5 : ℚ) - 5) * (2/100)) - q.2| :=
  (C8_rpe_and_effective_reps 90 5 100).2.1 (by norm_num)

/-- C9: for a Bodyweight-type exercise with user bodyweight 180 and a single
set of weight 20 and 8 reps, the logged weight is ignored: effective weight
180, workout e1RM 180 * (1 + 8/30) = 228, volume 180 * 8 = 1440. -/
theorem C9_bodyweight_example :
    effectiveWeight "Bodyweight" 180 20 = 180 ∧
    setE1RM "Bodyweight" 180 20 8 = 228 ∧
    (processCurrent "Bodyweight" 180 0 0 [⟨20, 8⟩]).e1RM = 228 ∧
    (processCurrent "Bodyweight" 180 0 0 [⟨20, 8⟩]).volume = 1440 := by
  refine ⟨effectiveWeight_bw 180 20, ?_, ?_, ?_⟩
  · norm_num [setE1RM, effectiveWeight_bw]
  · norm_num [processCurrent, currentStep, applySet, initSetState, effectiveWeight_bw,
      dictGet_nil, dictSet_nil]
  · norm_num [processCurrent, currentStep, applySet, initSetState, effectiveWeight_bw,
      dictGet_nil, dictSet_nil]

/-- C2 counterexample: three exercise entries on which the current shape and
the equivalent all-completed legacy shape disagree: a zero-rep set is counted
in `totalSets` only by the current branch; a fractional weight 5/2 is
truncated by the legacy branch's `int()` cast (volume 10 against 25/2); and
for a Bodyweight-type exercise the effective-reps estimate feeds the raw
logged weight in the current branch but the bodyweight-adjusted weight in the
legacy branch (0 against 6 effective reps). -/
theorem C2_counterexample :
    (processLegacy "Unknown" 0 0 0 ⟨[0], [100], [true]⟩).map ExResult.totalSets ≠
      some (processCurrent "Unknown" 0 0 0 [⟨100, 0⟩]).totalSets ∧
    (processLegacy "Unknown" 0 0 0 ⟨[5], [5/2], [true]⟩).map ExResult.volume ≠
      some (processCurrent "Unknown" 0 0 0 [⟨5/2, 5⟩]).volume ∧
    (processLegacy "Bodyweight" 180 200 0 ⟨[8], [20], [true]⟩).map ExResult.effectiveReps ≠
      some (processCurrent "Bodyweight" 180 200 0 [⟨20, 8⟩]).effectiveReps := by
  refine ⟨?_, ?_, ?_⟩
  · norm_num [processCurrent, processLegacy, legacyStep, legacyNum]
  · norm_num [processCurrent, processLegacy, legacyStep, legacyNum, pyTrunc, currentStep,
      applySet, initSetState, effectiveWeight_unknown, dictGet_nil, dictSet_nil]
  · norm_num [processCurrent, processLegacy, legacyStep, legacyNum, pyTrunc, currentStep,
      applySet, initSetState, effectiveWeight_bw, dictGet_nil, dictSet_nil,
      calculate_effective_reps, rawEffectiveReps, effectiveRepsContribution,
      rpe_raw_low, rpe_adjusted_high, min_def, pyRound]

/-- C3 counterexample: a window workout dated one day after the target date
and containing the same exercise drives `days_since_variation` to -1, and the
returned staleness score is -3, outside the claimed interval [0, 100]. -/
theorem C3_counterexample :
    calculate_staleness_score metaU "ex1" 0 [⟨some 1, [⟨"ex1", ExShape.current []⟩]⟩] < 0 := by
  norm_num [calculate_staleness_score, stalenessLoop, metaU, min_def]

/-- C3 amended: the staleness score never exceeds 100, and it lies in
[0, 100] whenever no window workout is dated after the target workout date. -/
theorem C3_staleness_bounds (meta : String → Metadata) (exid : String) (cd : ℤ)
    (recent : List WorkoutDoc) :
    calculate_staleness_score meta exid cd recent ≤ 100 ∧
    ((∀ w ∈ recent, w.date.getD cd ≤ cd) →
      0 ≤ calculate_staleness_score meta exid cd recent) :=
  ⟨staleness_le_100 meta exid cd recent, staleness_nonneg meta exid cd recent⟩

theorem C3_staleness_bounds_witness :
    calculate_staleness_score metaU "ex1" 0 [⟨some (-2), [⟨"ex1", ExShape.current []⟩]⟩] ≤ 100 ∧
    0 ≤ calculate_staleness_score metaU "ex1" 0 [⟨some (-2), [⟨"ex1", ExShape.current []⟩]⟩] :=
  ⟨(C3_staleness_bounds metaU "ex1" 0 [⟨some (-2), [⟨"ex1", ExShape.current []⟩]⟩]).1,
   (C3_staleness_bounds metaU "ex1" 0 [⟨some (-2), [⟨"ex1", ExShape.current []⟩]⟩]).2 (by decide)⟩

/-- C4 counterexample: in the current data shape, a set with `reps = 0` is
still counted in the exercise's set count (`workout_total_sets` is the length
of the whole `sets` list), contradicting "is not counted in the exercise's
set count ... in both data shapes". -/
theorem C4_counterexample :
    (processCurrent "Unknown" 0 0 0 [⟨100, 0⟩]).totalSets ≠ 0 := by
  simp [processCurrent]

/-- C5 counterexample: the stored PR keeps `round(set_e1rm)`, so for two sets
of weight 501/5 at 6 reps (raw e1RM 120.24, label 8RM) the retained record's
e1RM is 120, strictly below either set's e1RM of 120.24. -/
theorem C5_counterexample :
    get_rep_range_category 6 = "8RM" ∧
    ∃ pr, dictGet (processCurrent "Unknown" 0 0 0 [⟨501/5, 6⟩, ⟨501/5, 6⟩]).prs "8RM" = some pr ∧
      (pr.e1RM : ℚ) < setE1RM "Unknown" 0 (501/5) 6 := by
  have hcat : get_rep_range_category 6 = "8RM" := by
    norm_num [get_rep_range_category, REP_RANGES, List.find?]
  have hround : pyRound ((3006 : ℚ)/25) = 120 := by
    norm_num [pyRound]
  refine ⟨hcat, ⟨120, 501/5, 6, 0⟩, ?_, ?_⟩
  · norm_num [processCurrent, currentStep, applySet, initSetState, effectiveWeight_unknown,
      hcat, hround, dictGet_nil, dictSet_nil, dictGet_cons_self, dictSet_cons_self]
  · norm_num [setE1RM, effectiveWeight_unknown]

/-- C2 amended: the two shapes agree whenever the entry is nonempty, every
set has integer weight and positive integer reps (so the legacy branch's
`int()` casts are identities), and the exercise type is neither `Bodyweight`
nor `Bodyweight Loadable` (so the current branch's use of raw weights for
the effective-reps estimate coincides with the legacy branch's
bodyweight-adjusted weights). -/
theorem C2_shape_equivalence (t : String) (bw ce : ℚ) (d : ℤ) (sets : List SetEntry)
    (ht1 : t ≠ "Bodyweight") (ht2 : t ≠ "Bodyweight Loadable") (hne : sets ≠ [])
    (hsets : ∀ s ∈ sets,
      (∃ n : ℤ, s.weight = (n : ℚ)) ∧ (∃ n : ℤ, s.reps = (n : ℚ)) ∧ 0 < s.reps) :
    processLegacy t bw ce d
        ⟨sets.map SetEntry.reps, sets.map SetEntry.weight, sets.map (fun _ => true)⟩ =
      some (processCurrent t bw ce d sets) := by
  have hzip : (sets.map SetEntry.reps).zip ((sets.map SetEntry.weight).zip
      (sets.map (fun _ => true))) = sets.map (fun s => (s.reps, s.weight, true)) := by
    rw [List.zip_map', List.zip_map']
  have hmap : sets.map (fun s => (effectiveWeight t bw s.weight, s.reps)) =
      sets.map (fun s => (s.weight, s.reps)) :=
    List.map_congr_left (fun s _ => by rw [effectiveWeight_other t bw s.weight ht1 ht2])
  unfold processLegacy
  dsimp only
  rw [hzip]
  rw [if_neg (by rw [List.length_map, List.length_eq_zero]; exact hne)]
  rw [legacyFold_eq_currentFold t bw ce d sets initSetState 0 [] hsets]
  unfold processCurrent
  dsimp only
  rw [List.nil_append, hmap, Nat.zero_add]

theorem C2_shape_equivalence_witness :
    processLegacy "Unknown" 0 0 0
        ⟨([⟨100, 5⟩] : List SetEntry).map SetEntry.reps,
         ([⟨100, 5⟩] : List SetEntry).map SetEntry.weight,
         ([⟨100, 5⟩] : List SetEntry).map (fun _ => true)⟩ =
      some (processCurrent "Unknown" 0 0 0 [⟨100, 5⟩]) :=
  C2_shape_equivalence "Unknown" 0 0 0 [⟨100, 5⟩] (by decide) (by decide) (by simp)
    (by
      intro s hs
      rw [List.mem_singleton] at hs
      subst hs
      exact ⟨⟨100, by norm_num⟩, ⟨5, by norm_num⟩, by norm_num⟩)

/-- C4 amended: a set with `reps <= 0` contributes nothing to e1RM, volume,
reps, effective reps, intensity statistics, intensity distribution or the PR
table in either shape, and in the legacy shape it is also excluded from the
set count; but in the current shape every listed set — including `reps <= 0`
ones — is counted in `totalSets` (the branch takes `len(exercise['sets'])`). -/
theorem C4_zero_rep_skip (t : String) (bw ce : ℚ) (d : ℤ) :
    (∀ (l1 l2 : List SetEntry) (s : SetEntry), s.reps ≤ 0 →
      exceptSets (processCurrent t bw ce d (l1 ++ s :: l2)) =
        exceptSets (processCurrent t bw ce d (l1 ++ l2)) ∧
      (processCurrent t bw ce d (l1 ++ s :: l2)).totalSets =
        (processCurrent t bw ce d (l1 ++ l2)).totalSets + 1) ∧
    (∀ (rl wl : List ℚ) (cl : List Bool) (r0 w0 : ℚ),
      rl.length = wl.length → rl.length = cl.length → rl ≠ [] → r0 ≤ 0 →
      processLegacy t bw ce d ⟨rl ++ [r0], wl ++ [w0], cl ++ [true]⟩ =
        processLegacy t bw ce d ⟨rl, wl, cl⟩) := by
  constructor
  · intro l1 l2 s hs
    have hstep : ∀ st, currentStep t bw ce d st s = st := by
      intro st
      unfold currentStep
      rw [if_neg (not_lt.mpr hs)]
    have hfold : (l1 ++ s :: l2).foldl (currentStep t bw ce d) initSetState =
        (l1 ++ l2).foldl (currentStep t bw ce d) initSetState := by
      rw [List.foldl_append, List.foldl_append, List.foldl_cons, hstep]
    have hraw : rawEffectiveReps ((l1 ++ s :: l2).map (fun s => (s.weight, s.reps))) ce =
        rawEffectiveReps ((l1 ++ l2).map (fun s => (s.weight, s.reps))) ce := by
      unfold rawEffectiveReps
      rw [List.map_append, List.map_append, List.map_cons,
        List.foldl_append, List.foldl_append, List.foldl_cons]
      have hc : effectiveRepsContribution s.weight s.reps ce = 0 := by
        unfold effectiveRepsContribution
        rw [if_neg (fun hc => absurd hc.1 (not_lt.mpr hs))]
      dsimp only
      rw [hc, add_zero]
    constructor
    · unfold processCurrent exceptSets calculate_effective_reps
      dsimp only
      rw [hfold, hraw]
    · unfold processCurrent
      dsimp only
      rw [List.length_append, List.length_append, List.length_cons]
      omega
  · intro rl wl cl r0 w0 hlw hlc hne hr0
    have hzip1 : (wl ++ [w0]).zip (cl ++ [true]) = wl.zip cl ++ [(w0, true)] := by
      rw [List.zip_append (by omega)]
      rfl
    have hlen_wc : (wl.zip cl).length = wl.length := by
      rw [List.length_zip]
      omega
    have hzip2 : (rl ++ [r0]).zip (wl.zip cl ++ [(w0, true)]) =
        rl.zip (wl.zip cl) ++ [(r0, w0, true)] := by
      rw [List.zip_append (by omega)]
      rfl
    have hlen_base : (rl.zip (wl.zip cl)).length = rl.length := by
      rw [List.length_zip, hlen_wc]
      omega
    have hfold : (rl.zip (wl.zip cl) ++ [(r0, w0, true)]).foldl
        (legacyStep t bw ce d) (initSetState, 0, []) =
        (rl.zip (wl.zip cl)).foldl (legacyStep t bw ce d) (initSetState, 0, []) := by
      rw [List.foldl_append, List.foldl_cons, List.foldl_nil]
      unfold legacyStep
      dsimp only
      rw [if_pos rfl, if_neg (not_lt.mpr (legacyNum_nonpos hr0))]
    unfold processLegacy
    dsimp only
    rw [hzip1, hzip2]
    rw [if_neg (by simp)]
    rw [if_neg (by rw [hlen_base, List.length_eq_zero]; exact hne)]
    rw [hfold]

theorem C4_zero_rep_skip_witness :
    (exceptSets (processCurrent "Unknown" 0 0 0 ([] ++ ⟨50, 0⟩ :: [⟨100, 5⟩])) =
        exceptSets (processCurrent "Unknown" 0 0 0 ([] ++ [⟨100, 5⟩])) ∧
      (processCurrent "Unknown" 0 0 0 ([] ++ ⟨50, 0⟩ :: [⟨100, 5⟩])).totalSets =
        (processCurrent "Unknown" 0 0 0 ([] ++ [⟨100, 5⟩])).totalSets + 1) ∧
    processLegacy "Unknown" 0 0 0 ⟨[5] ++ [0], [100] ++ [50], [true] ++ [true]⟩ =
      processLegacy "Unknown" 0 0 0 ⟨[5], [100], [true]⟩ :=
  ⟨(C4_zero_rep_skip "Unknown" 0 0 0).1 [] [⟨100, 5⟩] ⟨50, 0⟩ (by norm_num),
   (C4_zero_rep_skip "Unknown" 0 0 0).2 [5] [100] [true] 0 50 rfl rfl (by simp) le_rfl⟩

/-- C5 amended: the stored PR keeps the rounded `round(set_e1rm)`, so within
one workout the retained PR's e1RM is at least the rounded e1RM of every
processed same-label set (not the raw value, which can exceed the stored one
by up to one half); a later set whose raw e1RM does not exceed the stored
value leaves the record unchanged, so equality keeps the first-seen record;
and the cross-workout merge keeps the record with the strictly larger
rounded e1RM, ties keeping the accumulator's earlier record. -/
theorem C5_pr_table (t : String) (bw ce : ℚ) (d : ℤ) :
    (∀ (sets : List SetEntry) (s : SetEntry), s ∈ sets → 0 < s.reps →
      ∃ pr, dictGet (processCurrent t bw ce d sets).prs (get_rep_range_category s.reps) =
          some pr ∧ pyRound (setE1RM t bw s.weight s.reps) ≤ pr.e1RM) ∧
    (∀ (st : SetState) (w r : ℚ) (pr : PRRecord),
      dictGet st.prs (get_rep_range_category r) = some pr →
      setE1RM t bw w r ≤ (pr.e1RM : ℚ) →
      (applySet t bw ce d st w r).prs = st.prs) ∧
    (∀ (ea new : List (String × PRRecord)) (lbl : String) (prE prN : PRRecord),
      (new.map Prod.fst).Nodup →
      dictGet ea lbl = some prE → dictGet new lbl = some prN →
      dictGet (mergePRs ea new) lbl = some (if prN.e1RM > prE.e1RM then prN else prE)) := by
  refine ⟨?_, applySet_pr_tie t bw ce d, mergePRs_max⟩
  intro sets s hmem hpos
  unfold processCurrent
  dsimp only
  exact foldCurrent_pr_own t bw ce d sets initSetState s hmem hpos

theorem C5_pr_table_witness :
    (∃ pr, dictGet (processCurrent "Unknown" 0 0 0 [⟨100, 5⟩]).prs
        (get_rep_range_category (5 : ℚ)) = some pr ∧
      pyRound (setE1RM "Unknown" 0 100 5) ≤ pr.e1RM) ∧
    (applySet "Unknown" 0 0 0 ⟨0, 0, 0, 0, 0, [], [("5RM", ⟨117, 100, 5, 0⟩)]⟩ 100 5).prs =
      [("5RM", ⟨117, 100, 5, 0⟩)] ∧
    dictGet (mergePRs [("5RM", (⟨117, 100, 5, 0⟩ : PRRecord))]
        [("5RM", (⟨110, 90, 5, 1⟩ : PRRecord))]) "5RM" =
      some (if (110 : ℤ) > 117 then (⟨110, 90, 5, 1⟩ : PRRecord) else ⟨117, 100, 5, 0⟩) := by
  have hcat5 : get_rep_range_category (5 : ℚ) = "5RM" := by
    norm_num [get_rep_range_category, REP_RANGES, List.find?]
  refine ⟨(C5_pr_table "Unknown" 0 0 0).1 [⟨100, 5⟩] ⟨100, 5⟩ (by simp) (by norm_num),
    (C5_pr_table "Unknown" 0 0 0).2.1 ⟨0, 0, 0, 0, 0, [], [("5RM", ⟨117, 100, 5, 0⟩)]⟩ 100 5
      ⟨117, 100, 5, 0⟩ (by rw [hcat5]; exact dictGet_cons_self _ _ _)
      (by norm_num [setE1RM, effectiveWeight_unknown]),
    (C5_pr_table "Unknown" 0 0 0).2.2 [("5RM", ⟨117, 100, 5, 0⟩)] [("5RM", ⟨110, 90, 5, 1⟩)]
      "5RM" ⟨117, 100, 5, 0⟩ ⟨110, 90, 5, 1⟩ (by simp)
      (dictGet_cons_self _ _ _) (dictGet_cons_self _ _ _)⟩

/-- C6: the `e1RM` field of the per-exercise accumulator is monotonically
non-decreasing across the sequence of workout merges of a run: each merge
takes the running maximum, so after any further merges the value never drops
below what any earlier prefix of merges reached. -/
theorem C6_e1rm_monotone :
    (∀ (m : Metadata) (s : ℤ) (p : PlateauData) (ea : ExerciseAnalytics) (r : ExResult),
      ea.e1RM ≤ (mergeAnalytics m s p ea r).e1RM) ∧
    (∀ (ea : ExerciseAnalytics) (ws1 ws2 : List (Metadata × ℤ × PlateauData × ExResult)),
      (runMerges ea ws1).e1RM ≤ (runMerges ea (ws1 ++ ws2)).e1RM) := by
  refine ⟨mergeAnalytics_e1RM_mono, fun ea ws1 ws2 => ?_⟩
  have h : runMerges ea (ws1 ++ ws2) = runMerges (runMerges ea ws1) ws2 := by
    unfold runMerges
    exact List.foldl_append _ _ _ _
  rw [h]
  exact runMerges_e1RM_mono _ _

/-- C10: the per-workout effective-rep contribution is the Python `round` of
the raw fractional sum — an integer within one half of that sum — and it is
that rounded integer that is added to the accumulator, so the accumulated
`totalEffectiveReps` is an integer after any sequence of merges. -/
theorem C10_effective_reps_rounding :
    (∀ (sets : List (ℚ × ℚ)) (e1rm : ℚ),
      |rawEffectiveReps sets e1rm - (calculate_effective_reps sets e1rm : ℚ)| ≤ 1/2) ∧
    (∀ (t : String) (bw ce : ℚ) (d : ℤ) (sets : List SetEntry),
      (processCurrent t bw ce d sets).effectiveReps =
        pyRound (rawEffectiveReps (sets.map (fun s => (s.weight, s.reps))) ce)) ∧
    (∀ (m : Metadata) (s : ℤ) (p : PlateauData) (r : ExResult)
      (ws : List (Metadata × ℤ × PlateauData × ExResult)),
      ∃ n : ℤ, (runMerges (initAnalytics m s p r) ws).totalEffectiveReps = (n : ℚ)) := by
  refine ⟨fun sets e1rm => pyRound_nearest (rawEffectiveReps sets e1rm),
    fun t bw ce d sets => rfl, ?_⟩
  intro m s p r ws
  exact runMerges_totalEffectiveReps_integral (initAnalytics m s p r) ws ⟨r.effectiveReps, rfl⟩

end Migrate
